import Mathlib

/-!
Shallow embedding of the repository (DarshanS20/Final-Year-Project):
  src/Model/ELUNet.py      a 3D U-Net style encoder/decoder network,
  src/Model/cardiacdata.py a dataset adapter for cardiac MRI volumes.

The network is embedded at the shape level: a tensor is its (batch, channel,
spatial) shape, every layer is the exact shape transformation the PyTorch
layer performs (convolution output size formulas, pooling floor formula,
transpose convolution formula), and the forward pass additionally emits a
trace of events (use of the final classifier, fusion convolutions, skip
consumption, interpolation fallbacks) so that claims about which layers run
can be stated.  Values are irrelevant to every network claim.

The dataset adapter is embedded at the value level over integer-valued
numpy arrays (the crop functions only move entries and insert zeros).
Python slicing, numpy concatenate / reshape / expand_dims and the string
processing of the loader are modelled exactly; the file reads of the
original constructor are replaced by parameters holding the file contents.
-/

namespace ELUNetModel

/-- Shape of a 5D tensor (N, C, X, Y, Z): batch, channels, three spatial dims. -/
structure Tensor where
  n : Nat
  c : Nat
  sp : Nat × Nat × Nat
  deriving DecidableEq

/-- Shape data of a Conv3d layer: declared input and output channel widths.
Source conv3x3 (kernel 3, stride 1, padding 1) and conv1x1 (kernel 1) both
preserve spatial size, so one shape-level record covers both. -/
structure ConvM where
  inCh : Nat
  outCh : Nat
  deriving DecidableEq

/-- Shape behaviour of a spatial-size-preserving convolution: the output
channel width is the declared one.  (PyTorch would raise at run time when
the actual channel count differs from the declared input width; the
mismatch itself is stated in the theorems, see claim C2.) -/
def applyConv (cv : ConvM) (t : Tensor) : Tensor :=
  { n := t.n, c := cv.outCh, sp := t.sp }

/-- Result of upconv2x2: either a learned ConvTranspose3d (kernel 2, stride 2)
or Upsample (trilinear, scale 2) followed by conv1x1. -/
inductive UpOp where
  | transposeConv (inCh outCh : Nat)
  | trilinearUp (inCh outCh : Nat)
  deriving DecidableEq

/-- Source upconv2x2: the string mode selects the branch; every string other
than the exact value of md falling to the second branch. -/
def upconv2x2 (in_channels out_channels : Nat) (mode : String) : UpOp :=
  if mode = "transpose" then
    UpOp.transposeConv in_channels out_channels
  else
    UpOp.trilinearUp in_channels out_channels

/-- Spatial size of ConvTranspose3d with kernel 2 stride 2: (d-1)*2 + 2. -/
def tconvDim (d : Nat) : Nat := (d - 1) * 2 + 2

/-- Spatial size of Upsample with scale factor 2: 2*d. -/
def upsampleDim (d : Nat) : Nat := 2 * d

/-- Shape behaviour of the upsampling operator returned by upconv2x2. -/
def UpOp.apply : UpOp → Tensor → Tensor
  | .transposeConv _ oc, t =>
      { n := t.n, c := oc, sp := (tconvDim t.sp.1, tconvDim t.sp.2.1, tconvDim t.sp.2.2) }
  | .trilinearUp _ oc, t =>
      { n := t.n, c := oc, sp := (upsampleDim t.sp.1, upsampleDim t.sp.2.1, upsampleDim t.sp.2.2) }

/-- Declared output channel width of an upsampling operator. -/
def UpOp.outCh : UpOp → Nat
  | .transposeConv _ oc => oc
  | .trilinearUp _ oc => oc

/-- Spatial size of MaxPool3d with kernel 2, stride 2, padding 0:
floor((d - 2)/2) + 1. -/
def poolDim (d : Nat) : Nat := (d - 2) / 2 + 1

/-- Shape behaviour of MaxPool3d(kernel_size=2, stride=2, padding=0). -/
def maxpool (t : Tensor) : Tensor :=
  { n := t.n, c := t.c, sp := (poolDim t.sp.1, poolDim t.sp.2.1, poolDim t.sp.2.2) }

/-- Interpolation of a tensor to a target spatial size (F.interpolate with
mode trilinear): the shape becomes the target. -/
def interpolate (t : Tensor) (target : Nat × Nat × Nat) : Tensor :=
  { n := t.n, c := t.c, sp := target }

/-- Concatenation of two tensors along the channel axis (torch.cat dim=1). -/
def cat1 (a b : Tensor) : Tensor :=
  { n := a.n, c := a.c + b.c, sp := a.sp }

/-- Encoder stage DsBlock: a conv3x3 (in_channels to out_channels) and a
pooling flag; the ReLU is shape-neutral. -/
structure DsBlockM where
  conv : ConvM
  pooling : Bool
  deriving DecidableEq

/-- Constructor of DsBlock. -/
def DsBlockM.init (in_channels out_channels : Nat) (pooling : Bool) : DsBlockM :=
  { conv := ⟨in_channels, out_channels⟩, pooling := pooling }

/-- Forward of DsBlock: conv then ReLU giving before_pool; the forwarded
output is max-pooled when the pooling flag is set.  Returns
(forwarded output, before_pool). -/
def DsBlockM.fwd (blk : DsBlockM) (x : Tensor) : Tensor × Tensor :=
  let out := applyConv blk.conv x
  let before_pool := out
  (if blk.pooling then maxpool out else out, before_pool)

/-- Plain decoder stage UsBlock: an upconv2x2 from in_channels to
out_channels, and a conv3x3 declared over in_channels + out_channels. -/
structure UsBlockM where
  upconv : UpOp
  conv : ConvM
  deriving DecidableEq

/-- Constructor of UsBlock. -/
def UsBlockM.init (in_channels out_channels : Nat) (up_mode : String) : UsBlockM :=
  { upconv := upconv2x2 in_channels out_channels up_mode,
    conv := ⟨in_channels + out_channels, out_channels⟩ }

/-- Forward of UsBlock: upsample x, then the conv and ReLU.  The before_pool
argument is never used; no concatenation happens. -/
def UsBlockM.fwd (blk : UsBlockM) (before_pool x : Tensor) : Tensor :=
  let x1 := blk.upconv.apply x
  applyConv blk.conv x1

/-- Residual decoder stage UsBlockRes: an upconv2x2, and a conv3x3 declared
over out_channels + out_channels. -/
structure UsBlockResM where
  upconv : UpOp
  conv : ConvM
  deriving DecidableEq

/-- Constructor of UsBlockRes. -/
def UsBlockResM.init (in_channels out_channels : Nat) (up_mode : String) : UsBlockResM :=
  { upconv := upconv2x2 in_channels out_channels up_mode,
    conv := ⟨out_channels + out_channels, out_channels⟩ }

/-- Forward of UsBlockRes: upsample x; resize before_pool by trilinear
interpolation when its spatial size differs from the upsampled tensor;
concatenate along channels; conv and ReLU.  The boolean reports whether the
interpolation fallback ran. -/
def UsBlockResM.fwd (blk : UsBlockResM) (before_pool x : Tensor) : Tensor × Bool :=
  let x1 := blk.upconv.apply x
  let target_size := x1.sp
  let (bp, trig) :=
    if before_pool.sp ≠ target_size then (interpolate before_pool target_size, true)
    else (before_pool, false)
  let x2 := cat1 x1 bp
  (applyConv blk.conv x2, trig)

/-- A decoder stage of ELUNet is a UsBlock or a UsBlockRes, chosen by the
res flag at construction. -/
inductive UpBlockM where
  | plain (blk : UsBlockM)
  | residual (blk : UsBlockResM)
  deriving DecidableEq

/-- Forward of a decoder stage; the boolean reports whether the in-block
interpolation fallback ran (always false for the plain variant). -/
def UpBlockM.fwd : UpBlockM → Tensor → Tensor → Tensor × Bool
  | .plain blk, bp, x => (blk.fwd bp x, false)
  | .residual blk, bp, x => blk.fwd bp x

/-- Declared output channel width of a decoder stage. -/
def UpBlockM.outCh : UpBlockM → Nat
  | .plain blk => blk.conv.outCh
  | .residual blk => blk.conv.outCh

/-- Declared input channel width of the upsampling operator of a decoder
stage (the first constructor argument of the block in the source). -/
def UpBlockM.upInCh : UpBlockM → Nat
  | .plain blk => match blk.upconv with
      | .transposeConv ic _ => ic
      | .trilinearUp ic _ => ic
  | .residual blk => match blk.upconv with
      | .transposeConv ic _ => ic
      | .trilinearUp ic _ => ic

/-- Events emitted by the forward pass of ELUNet, so that which layers run,
in what order and on which skip tensors can be stated.  resampleRes is the
interpolation fallback inside UsBlockRes, resampleOuter the one in the body
of ELUNet.forward. -/
inductive Ev where
  | skipUse (i k : Nat)
  | resampleRes (i : Nat)
  | resampleOuter (i : Nat)
  | fusionConv (i : Nat)
  | convFinal
  deriving DecidableEq

/-- The ELUNet module after construction: the configuration arguments and
every sub-layer the constructor builds. -/
structure ELUNetM where
  num_classes : Nat
  in_channels : Nat
  depth : Nat
  start_filts : Nat
  up_mode : String
  res : Bool
  conv_start : ConvM
  down_convs : List DsBlockM
  up_convs : List UpBlockM
  conv_final : ConvM
  conv : ConvM
  deriving DecidableEq

/-- The decoder construction loop: iterating ins = outs; outs = ins // 2,
building a UsBlockRes (with first argument ins + outs) when res is set and
a UsBlock otherwise. -/
def buildUp (res : Bool) (up_mode : String) : Nat → Nat → List UpBlockM
  | _, 0 => []
  | outs, n + 1 =>
      let ins := outs
      let outs2 := ins / 2
      (if res then UpBlockM.residual (UsBlockResM.init (ins + outs2) outs2 up_mode)
       else UpBlockM.plain (UsBlockM.init ins outs2 up_mode)) :: buildUp res up_mode outs2 n

/-- Value of the variable outs after n iterations of the decoder
construction loop starting from outs0. -/
def decOuts : Nat → Nat → Nat
  | outs, 0 => outs
  | outs, n + 1 => decOuts (outs / 2) n

/-- Constructor of ELUNet.  The encoder loop builds DsBlock(F0*2^i,
F0*2^i*2) with pooling exactly when i < depth - 1; after that loop the
variable outs holds start_filts * 2^(depth-1) * 2 (for depth = 0 the source
would hit an unbound variable; claims assume depth at least 1).  The
decoder loop halves outs depth-1 times; conv_final is a conv1x1 from the
final outs to num_classes and conv is the shared fusion conv3x3 from
outs * 2 to outs. -/
def ELUNetM.init (num_classes : Nat) (in_channels : Nat) (depth : Nat)
    (start_filts : Nat) (up_mode : String) (res : Bool) : ELUNetM :=
  let conv_start : ConvM := ⟨in_channels, start_filts⟩
  let down_convs := (List.range depth).map fun i =>
    DsBlockM.init (start_filts * 2 ^ i) (start_filts * 2 ^ i * 2) (decide (i < depth - 1))
  let outs0 := start_filts * 2 ^ (depth - 1) * 2
  let up_convs := buildUp res up_mode outs0 (depth - 1)
  let outsF := decOuts outs0 (depth - 1)
  { num_classes := num_classes, in_channels := in_channels, depth := depth,
    start_filts := start_filts, up_mode := up_mode, res := res,
    conv_start := conv_start, down_convs := down_convs, up_convs := up_convs,
    conv_final := ⟨outsF, num_classes⟩, conv := ⟨outsF * 2, outsF⟩ }

/-- The encoder loop of ELUNet.forward: runs each DsBlock, collecting all
before_pool tensors in encoder_outs and, for every index i with
i < total - 1 (total being the number of encoder stages), the forwarded
post-pool tensor in skip_connections.  Returns
(final tensor, encoder_outs, skip_connections). -/
def encLoop (total : Nat) : Nat → List DsBlockM → Tensor → Tensor × List Tensor × List Tensor
  | _, [], x => (x, [], [])
  | i, blk :: rest, x =>
      let r := blk.fwd x
      let rec0 := encLoop total (i + 1) rest r.1
      (rec0.1, r.2 :: rec0.2.1,
        if i < total - 1 then r.1 :: rec0.2.2 else rec0.2.2)

/-- The decoder loop of ELUNet.forward: at iteration i it applies the i-th
decoder stage to (skip_connections[-(i+1)], x), fetches
before_pool = encoder_outs[-(i+1)], interpolates it to the spatial size of
the stage output when the sizes differ, concatenates along channels, and
applies the shared fusion convolution.  Negative python indexing
lst[-(i+1)] is the element at position length - 1 - i.  The event list
records skip consumption, both interpolation fallbacks and each fusion
convolution. -/
def decLoop (fusion : ConvM) (skips eouts : List Tensor) :
    Nat → List UpBlockM → Tensor → Tensor × List Ev
  | _, [], x => (x, [])
  | i, blk :: rest, x =>
      let k := skips.length - 1 - i
      let sk := skips.getD k ⟨0, 0, (0, 0, 0)⟩
      let st := blk.fwd sk x
      let before_pool := eouts.getD (eouts.length - 1 - i) ⟨0, 0, (0, 0, 0)⟩
      let target_size := st.1.sp
      let bp2 :=
        if before_pool.sp ≠ target_size then (interpolate before_pool target_size, true)
        else (before_pool, false)
      let x2 := cat1 st.1 bp2.1
      let x3 := applyConv fusion x2
      let rec0 := decLoop fusion skips eouts (i + 1) rest x3
      (rec0.1,
        Ev.skipUse i k ::
          ((if st.2 then [Ev.resampleRes i] else []) ++
           (if bp2.2 then [Ev.resampleOuter i] else []) ++
           (Ev.fusionConv i :: rec0.2)))

/-- Default DsBlock used as the out-of-range value of list lookups in
statements (every lookup a theorem makes is in range). -/
def dfltDs : DsBlockM := ⟨⟨0, 0⟩, false⟩

/-- Default decoder block used as the out-of-range value of list lookups in
statements (every lookup a theorem makes is in range). -/
def dfltUp : UpBlockM := UpBlockM.plain ⟨UpOp.transposeConv 0 0, ⟨0, 0⟩⟩

/-- ELUNet.forward: the initial convolution, the encoder loop, the decoder
loop; returns the final tensor and the tuple of skip connections (plus the
instrumentation event trace).  The final classifier conv_final does not
appear anywhere in this pass, exactly as in the source. -/
def ELUNetM.forward (net : ELUNetM) (x : Tensor) : Tensor × List Tensor × List Ev :=
  let x0 := applyConv net.conv_start x
  let enc := encLoop net.down_convs.length 0 net.down_convs x0
  let dec := decLoop net.conv enc.2.2 enc.2.1 0 net.up_convs enc.1
  (dec.1, enc.2.2, dec.2)

end ELUNetModel

namespace CardiacData

/-- A 3D numpy array: shape fields and integer-valued data indexed by
coordinates (entries outside the shape are irrelevant). -/
@[ext] structure Arr3 where
  s0 : Nat
  s1 : Nat
  s2 : Nat
  data : Nat → Nat → Nat → Int

/-- A 4D numpy array. -/
@[ext] structure Arr4 where
  s0 : Nat
  s1 : Nat
  s2 : Nat
  s3 : Nat
  data : Nat → Nat → Nat → Nat → Int

/-- Normalisation of a python slice index against an axis of length n: a
negative index counts from the end and the result is clamped into [0, n]. -/
def pyIdx (n : Nat) (i : Int) : Nat :=
  if i < 0 then (i + n).toNat else min i.toNat n

/-- Slicing a[lo:hi] along axis 0 of a 4D array. -/
def Arr4.slice0 (a : Arr4) (lo hi : Int) : Arr4 :=
  let l := pyIdx a.s0 lo
  let h := pyIdx a.s0 hi
  { s0 := h - l, s1 := a.s1, s2 := a.s2, s3 := a.s3,
    data := fun i j k m => a.data (i + l) j k m }

/-- Slicing a[:, lo:hi] along axis 1 of a 4D array. -/
def Arr4.slice1 (a : Arr4) (lo hi : Int) : Arr4 :=
  let l := pyIdx a.s1 lo
  let h := pyIdx a.s1 hi
  { s0 := a.s0, s1 := h - l, s2 := a.s2, s3 := a.s3,
    data := fun i j k m => a.data i (j + l) k m }

/-- Slicing a[:, :, lo:hi] along axis 2 of a 4D array. -/
def Arr4.slice2 (a : Arr4) (lo hi : Int) : Arr4 :=
  let l := pyIdx a.s2 lo
  let h := pyIdx a.s2 hi
  { s0 := a.s0, s1 := a.s1, s2 := h - l, s3 := a.s3,
    data := fun i j k m => a.data i j (k + l) m }

/-- Slicing a[:, :, :, lo:hi] along axis 3 of a 4D array. -/
def Arr4.slice3 (a : Arr4) (lo hi : Int) : Arr4 :=
  let l := pyIdx a.s3 lo
  let h := pyIdx a.s3 hi
  { s0 := a.s0, s1 := a.s1, s2 := a.s2, s3 := h - l,
    data := fun i j k m => a.data i j k (m + l) }

/-- Slicing a[lo:hi] along axis 0 of a 3D array. -/
def Arr3.slice0 (a : Arr3) (lo hi : Int) : Arr3 :=
  let l := pyIdx a.s0 lo
  let h := pyIdx a.s0 hi
  { s0 := h - l, s1 := a.s1, s2 := a.s2,
    data := fun i j k => a.data (i + l) j k }

/-- Slicing a[:, lo:hi] along axis 1 of a 3D array. -/
def Arr3.slice1 (a : Arr3) (lo hi : Int) : Arr3 :=
  let l := pyIdx a.s1 lo
  let h := pyIdx a.s1 hi
  { s0 := a.s0, s1 := h - l, s2 := a.s2,
    data := fun i j k => a.data i (j + l) k }

/-- Slicing a[:, :, lo:hi] along axis 2 of a 3D array. -/
def Arr3.slice2 (a : Arr3) (lo hi : Int) : Arr3 :=
  let l := pyIdx a.s2 lo
  let h := pyIdx a.s2 hi
  { s0 := a.s0, s1 := a.s1, s2 := h - l,
    data := fun i j k => a.data i j (k + l) }

/-- np.concatenate along axis 0 of 4D arrays. -/
def concat4ax0 (a b : Arr4) : Arr4 :=
  { s0 := a.s0 + b.s0, s1 := a.s1, s2 := a.s2, s3 := a.s3,
    data := fun i j k m => if i < a.s0 then a.data i j k m else b.data (i - a.s0) j k m }

/-- np.concatenate along axis 1 of 4D arrays. -/
def concat4ax1 (a b : Arr4) : Arr4 :=
  { s0 := a.s0, s1 := a.s1 + b.s1, s2 := a.s2, s3 := a.s3,
    data := fun i j k m => if j < a.s1 then a.data i j k m else b.data i (j - a.s1) k m }

/-- np.concatenate along axis 0 of 3D arrays. -/
def concat3ax0 (a b : Arr3) : Arr3 :=
  { s0 := a.s0 + b.s0, s1 := a.s1, s2 := a.s2,
    data := fun i j k => if i < a.s0 then a.data i j k else b.data (i - a.s0) j k }

/-- An all-zero 4D array (np.zeros). -/
def zeros4 (a b c d : Nat) : Arr4 :=
  { s0 := a, s1 := b, s2 := c, s3 := d, data := fun _ _ _ _ => 0 }

/-- An all-zero 3D array (np.zeros). -/
def zeros3 (a b c : Nat) : Arr3 :=
  { s0 := a, s1 := b, s2 := c, data := fun _ _ _ => 0 }

/-- np.expand_dims(a, axis=0) on a 3D array (also torch unsqueeze(0)). -/
def Arr3.expand0 (a : Arr3) : Arr4 :=
  { s0 := 1, s1 := a.s0, s2 := a.s1, s3 := a.s2,
    data := fun _ j k m => a.data j k m }

/-- Indexing a[i] on axis 0 of a 4D array. -/
def Arr4.index0 (a : Arr4) (i : Nat) : Arr3 :=
  { s0 := a.s1, s1 := a.s2, s2 := a.s3,
    data := fun j k m => a.data i j k m }

/-- np.reshape(a, [a.s0 * a.s1, a.s2, a.s3]): merging the two leading axes
in row-major order. -/
def Arr4.mergeLeading (a : Arr4) : Arr3 :=
  { s0 := a.s0 * a.s1, s1 := a.s2, s2 := a.s3,
    data := fun j k m => a.data (j / a.s1) (j % a.s1) k m }

/-- Source crop_img: center crop of the two trailing spatial axes to
144 x 144; the depth axis (axis 1) is zero-padded at the end up to 8 when
shorter, otherwise center-cropped to 8. -/
def crop_img (img : Arr4) : Arr4 :=
  let sizex := 144
  let sizey := 144
  let sizez := 8
  let sh0 := img.s0
  let sh1 := img.s1
  let midptx := img.s2 / 2
  let midpty := img.s3 / 2
  if sh1 < 8 then
    let residue := 8 - sh1
    let a := zeros4 sh0 residue 144 144
    let cropped := (img.slice2 ((midptx : Int) - sizex / 2) ((midptx : Int) + sizex / 2)).slice3
      ((midpty : Int) - sizey / 2) ((midpty : Int) + sizey / 2)
    concat4ax1 cropped a
  else
    let midptz := sh1 / 2
    ((img.slice1 ((midptz : Int) - sizez / 2) ((midptz : Int) + sizez / 2)).slice2
      ((midptx : Int) - sizex / 2) ((midptx : Int) + sizex / 2)).slice3
      ((midpty : Int) - sizey / 2) ((midpty : Int) + sizey / 2)

/-- Source crop_label: same as crop_img on a 3D array whose leading axis is
depth. -/
def crop_label (img : Arr3) : Arr3 :=
  let sizex := 144
  let sizey := 144
  let sizez := 8
  let sh0 := img.s0
  let midptx := img.s1 / 2
  let midpty := img.s2 / 2
  if sh0 < 8 then
    let residue := 8 - sh0
    let a := zeros3 residue 144 144
    let cropped := (img.slice1 ((midptx : Int) - sizex / 2) ((midptx : Int) + sizex / 2)).slice2
      ((midpty : Int) - sizey / 2) ((midpty : Int) + sizey / 2)
    concat3ax0 cropped a
  else
    let midptz := sh0 / 2
    ((img.slice0 ((midptz : Int) - sizez / 2) ((midptz : Int) + sizez / 2)).slice1
      ((midptx : Int) - sizex / 2) ((midptx : Int) + sizex / 2)).slice2
      ((midpty : Int) - sizey / 2) ((midpty : Int) + sizey / 2)

/-- Source normalize_img subtracts the image mean and divides by the image
standard deviation: floating point scalar arithmetic, modelled by an
elementwise value map f passed as a parameter.  The shape behaviour, which
is all the theorems use, is exact: the shape is unchanged. -/
def normalize_img (f : Int → Int) (img : Arr4) : Arr4 :=
  { s0 := img.s0, s1 := img.s1, s2 := img.s2, s3 := img.s3,
    data := fun i j k m => f (img.data i j k m) }

/-- Helper of digitRuns carrying the run of digits read so far (reversed). -/
def digitRunsAux : List Char → List Char → List String
  | [], cur => if cur.isEmpty then [] else [String.mk cur.reverse]
  | c :: cs, cur =>
      if c.isDigit then digitRunsAux cs (c :: cur)
      else if cur.isEmpty then digitRunsAux cs []
      else String.mk cur.reverse :: digitRunsAux cs []

/-- All maximal runs of decimal digits in a string, in order: the model of
re.findall over the digit pattern. -/
def digitRuns (s : String) : List String :=
  digitRunsAux s.toList []

/-- Python str.zfill on an unsigned string: pad on the left with zeros up
to width n. -/
def zfill (n : Nat) (s : String) : String :=
  if n ≤ s.length then s
  else String.mk (List.replicate (n - s.length) '0') ++ s

/-- The hardcoded dataset root of the source. -/
def IMG_DIR : String :=
  "/Users/darshan/Documents/Engineering/8th-Semester/FrontEnd/ACDC/database/training"

/-- Helper of splitOnChar carrying the current piece (reversed). -/
def splitOnCharAux (sep : Char) : List Char → List Char → List String
  | [], cur => [String.mk cur.reverse]
  | c :: cs, cur =>
      if c = sep then String.mk cur.reverse :: splitOnCharAux sep cs []
      else splitOnCharAux sep cs (c :: cur)

/-- Python str.split on a one-character separator (the source splits only
on a newline and on a colon). -/
def splitOnChar (sep : Char) (s : String) : List String :=
  splitOnCharAux sep s.toList []

/-- Helper of parseNat: reads decimal digits left to right. -/
def digitsToNatAux : List Char → Nat → Option Nat
  | [], acc => some acc
  | c :: cs, acc =>
      if c.isDigit then digitsToNatAux cs (acc * 10 + (c.toNat - 48)) else none

/-- Python int() on the plain nonnegative decimal strings the loader feeds
it; any other string made the source raise, modelled as none. -/
def parseNat (s : String) : Option Nat :=
  match s.toList with
  | [] => none
  | c :: cs => digitsToNatAux (c :: cs) 0

/-- Reading one frame index from the Info.cfg content: line n of the file
split on newlines, the part after the colon, parsed as an integer.  An
out-of-range line or a missing colon made the source raise; here it yields
none (so does an unparsable integer). -/
def infoLine (content : String) (n : Nat) : Option Nat :=
  parseNat ((splitOnChar ':' ((splitOnChar '\n' content).getD n "")).getD 1 "")

/-- The ground-truth label path the constructor builds for a zero-padded
patient number and a zero-padded frame string. -/
def gt_dir (ptnum frame_str : String) : String :=
  IMG_DIR ++ "/patient" ++ ptnum ++ "/patient" ++ ptnum ++ "_frame" ++ frame_str ++ "_gt.nii.gz"

/-- The state a cardiacdata instance holds after construction.  Beyond the
three stored attributes (img, gt, len) the record keeps the patient number,
the parsed frame indices and the two ground-truth paths, which are locals
of the source constructor, so that claims about parsing and path
construction can be stated. -/
structure cardiacdata where
  ptnum : String
  ed : Nat
  es : Nat
  gt_dir_ed : String
  gt_dir_es : String
  img : Arr4
  gt : Arr4
  len : Nat

/-- The source constructor reads the 4D volume, the Info.cfg text and the
two ground-truth volumes from disk (paths built from the patient number and
the parsed frame indices); the model takes those file contents as the
parameters raw_img, content, ed_raw and es_raw.  Everything else follows
the source line by line: crop, parse, phase selection by python slicing,
concatenation, normalisation (elementwise map f, see normalize_img),
expansion and the reshape merging phase and depth axes.  Construction
fails (none) where the source raises: no digits in the folder name, or an
unparsable Info.cfg. -/
def cardiacdata.init (folder_name content : String) (raw_img : Arr4)
    (ed_raw es_raw : Arr3) (f : Int → Int) : Option cardiacdata := do
  let pt ← (digitRuns folder_name).head?
  let ptnum := zfill 3 pt
  let dummy_img0 := crop_img raw_img
  let es ← infoLine content 1
  let es_str := zfill 2 (toString es)
  let gt_es := gt_dir ptnum es_str
  let es_label := crop_label es_raw
  let ed ← infoLine content 0
  let ed_str := zfill 2 (toString ed)
  let gt_ed := gt_dir ptnum ed_str
  let ed_label := crop_label ed_raw
  let a := dummy_img0.slice0 ((ed : Int) - 1) (ed : Int)
  let b := dummy_img0.slice0 ((es : Int) - 1) (es : Int)
  let dummy_img1 := concat4ax0 a b
  let dummy_img2 := normalize_img f dummy_img1
  let ed_l := ed_label.expand0
  let es_l := es_label.expand0
  let dummy_gt := concat4ax0 ed_l es_l
  let img := dummy_img2.mergeLeading.expand0
  let gt := dummy_gt.mergeLeading.expand0
  some { ptnum := ptnum, ed := ed, es := es, gt_dir_ed := gt_ed, gt_dir_es := gt_es,
         img := img, gt := gt, len := img.s0 }

/-- Source getitem: img = self.img[i] with a channel axis added by
unsqueeze(0); gt = self.gt[i].  The torch conversions astype float32 and
long preserve the integer values of the model. -/
def cardiacdata.getitem (d : cardiacdata) (i : Nat) : Arr4 × Arr3 :=
  (d.img.index0 i |>.expand0, d.gt.index0 i)

end CardiacData

namespace ELUNetModel

/-- Claim C9: upconv2x2 yields the learned transpose convolution exactly on
the mode string transpose, and the trilinear branch (fixed upsample plus
1x1x1 convolution) on every other string, misspellings included, with no
error. -/
theorem upconv2x2_mode_dispatch (ic oc : Nat) (mode : String)
    (h : mode ≠ "transpose") :
    upconv2x2 ic oc mode = UpOp.trilinearUp ic oc ∧
    upconv2x2 ic oc "transpose" = UpOp.transposeConv ic oc := by
  refine ⟨?_, rfl⟩
  simp [upconv2x2, h]

/-- Witness for claim C9 at a misspelt mode string. -/
theorem upconv2x2_mode_dispatch_witness :
    upconv2x2 3 5 "trilinear" = UpOp.trilinearUp 3 5 ∧
    upconv2x2 3 5 "transpose" = UpOp.transposeConv 3 5 :=
  upconv2x2_mode_dispatch 3 5 "trilinear" (by decide)

/-- Claim C2: the forward pass of the plain decoder stage UsBlock ignores
its skip argument entirely, its convolution is declared over
in_channels + out_channels, yet that convolution is applied to the bare
upsampled tensor, which carries only out_channels channels, so the declared
width never matches the tensor the convolution receives. -/
theorem usblock_skip_unused_and_channel_mismatch (ic oc : Nat) (hic : 1 ≤ ic)
    (mode : String) (bp bp2 x : Tensor) :
    (UsBlockM.init ic oc mode).fwd bp x = (UsBlockM.init ic oc mode).fwd bp2 x ∧
    (UsBlockM.init ic oc mode).conv.inCh = ic + oc ∧
    (((UsBlockM.init ic oc mode).upconv.apply x).c = oc) ∧
    (UsBlockM.init ic oc mode).fwd bp x
      = applyConv (UsBlockM.init ic oc mode).conv ((UsBlockM.init ic oc mode).upconv.apply x) ∧
    (UsBlockM.init ic oc mode).conv.inCh ≠ ((UsBlockM.init ic oc mode).upconv.apply x).c := by
  have hc : ((UsBlockM.init ic oc mode).upconv.apply x).c = oc := by
    simp only [UsBlockM.init, upconv2x2]
    split <;> rfl
  refine ⟨rfl, rfl, hc, rfl, ?_⟩
  rw [hc]
  show ic + oc ≠ oc
  omega

/-- Witness for claim C2 with concrete channel widths and tensors. -/
theorem usblock_skip_unused_and_channel_mismatch_witness :
    (UsBlockM.init 4 2 "transpose").fwd ⟨1, 2, (4, 4, 4)⟩ ⟨1, 4, (2, 2, 2)⟩
      = (UsBlockM.init 4 2 "transpose").fwd ⟨9, 9, (9, 9, 9)⟩ ⟨1, 4, (2, 2, 2)⟩ ∧
    (UsBlockM.init 4 2 "transpose").conv.inCh = 4 + 2 ∧
    (((UsBlockM.init 4 2 "transpose").upconv.apply ⟨1, 4, (2, 2, 2)⟩).c = 2) ∧
    (UsBlockM.init 4 2 "transpose").fwd ⟨1, 2, (4, 4, 4)⟩ ⟨1, 4, (2, 2, 2)⟩
      = applyConv (UsBlockM.init 4 2 "transpose").conv
          ((UsBlockM.init 4 2 "transpose").upconv.apply ⟨1, 4, (2, 2, 2)⟩) ∧
    (UsBlockM.init 4 2 "transpose").conv.inCh
      ≠ (((UsBlockM.init 4 2 "transpose").upconv.apply ⟨1, 4, (2, 2, 2)⟩)).c :=
  usblock_skip_unused_and_channel_mismatch 4 2 (by decide) "transpose"
    ⟨1, 2, (4, 4, 4)⟩ ⟨9, 9, (9, 9, 9)⟩ ⟨1, 4, (2, 2, 2)⟩

/-- Lookup in the image of List.range under a map. -/
theorem rangeMap_getD {α : Type} (f : Nat → α) (d : α) (n i : Nat) (h : i < n) :
    ((List.range n).map f).getD i d = f i := by
  rw [List.getD_eq_getElem _ _ (by simpa using h)]
  simp

/-- The decoder construction loop builds one block per iteration. -/
theorem buildUp_length (res : Bool) (mode : String) :
    ∀ n outs, (buildUp res mode outs n).length = n := by
  intro n
  induction n with
  | zero => intro outs; rfl
  | succ m ih => intro outs; simp [buildUp, ih]

/-- Output channel width of the i-th block of the decoder construction
loop: the starting width halved i+1 times. -/
theorem buildUp_getD_outCh (res : Bool) (mode : String) :
    ∀ n i outs, i < n →
      ((buildUp res mode outs n).getD i dfltUp).outCh = outs / 2 ^ (i + 1) := by
  intro n
  induction n with
  | zero => intro i outs h; exact absurd h (Nat.not_lt_zero i)
  | succ m ih =>
      intro i outs h
      cases i with
      | zero =>
          cases res <;>
            simp [buildUp, UpBlockM.outCh, UsBlockM.init, UsBlockResM.init]
      | succ j =>
          have hj : j < m := by omega
          rw [buildUp, List.getD_cons_succ, ih j (outs / 2) hj,
            Nat.div_div_eq_div_mul, ← pow_succ']

/-- After the encoder construction loop the variable outs holds
start_filts times 2 to the depth, for depth at least 1. -/
theorem outs_after_encoder (F0 D : Nat) (hD : 1 ≤ D) :
    F0 * 2 ^ (D - 1) * 2 = F0 * 2 ^ D := by
  rw [mul_assoc, ← pow_succ]
  congr 2
  omega

/-- Claim C4: for depth at least 1 and start filters at least 1, the
constructor builds exactly depth encoder stages and depth - 1 decoder
stages; encoder stage i is a conv mapping F0 * 2^i channels to
2 * (F0 * 2^i) channels, decoder stage i outputs F0 * 2^(D-1-i) channels,
each decoder stage emitting half the channels of the previous one, the
first emitting half the channels of the final encoder stage. -/
theorem elunet_stage_counts_and_channels (nc ic D F0 : Nat) (hD : 1 ≤ D)
    (hF : 1 ≤ F0) (mode : String) (res : Bool) :
    (ELUNetM.init nc ic D F0 mode res).down_convs.length = D ∧
    (ELUNetM.init nc ic D F0 mode res).up_convs.length = D - 1 ∧
    (∀ i, i < D →
      ((ELUNetM.init nc ic D F0 mode res).down_convs.getD i dfltDs).conv.inCh = F0 * 2 ^ i ∧
      ((ELUNetM.init nc ic D F0 mode res).down_convs.getD i dfltDs).conv.outCh
        = 2 * (F0 * 2 ^ i)) ∧
    (∀ i, i < D - 1 →
      ((ELUNetM.init nc ic D F0 mode res).up_convs.getD i dfltUp).outCh
        = F0 * 2 ^ (D - 1 - i)) ∧
    (∀ i, i + 1 < D - 1 →
      2 * ((ELUNetM.init nc ic D F0 mode res).up_convs.getD (i + 1) dfltUp).outCh
        = ((ELUNetM.init nc ic D F0 mode res).up_convs.getD i dfltUp).outCh) ∧
    (2 ≤ D →
      2 * ((ELUNetM.init nc ic D F0 mode res).up_convs.getD 0 dfltUp).outCh
        = ((ELUNetM.init nc ic D F0 mode res).down_convs.getD (D - 1) dfltDs).conv.outCh) := by
  have hup : ∀ i, i < D - 1 →
      ((ELUNetM.init nc ic D F0 mode res).up_convs.getD i dfltUp).outCh
        = F0 * 2 ^ (D - 1 - i) := by
    intro i hi
    show ((buildUp res mode (F0 * 2 ^ (D - 1) * 2) (D - 1)).getD i dfltUp).outCh = _
    rw [buildUp_getD_outCh res mode (D - 1) i (F0 * 2 ^ (D - 1) * 2) hi,
      outs_after_encoder F0 D hD]
    have hsplit : F0 * 2 ^ D = F0 * 2 ^ (D - 1 - i) * 2 ^ (i + 1) := by
      rw [mul_assoc, ← pow_add]
      congr 2
      omega
    rw [hsplit, Nat.mul_div_cancel _ (Nat.pos_pow_of_pos (i + 1) (by omega))]
  have hdown0 : ∀ i, i < D →
      (ELUNetM.init nc ic D F0 mode res).down_convs.getD i dfltDs
        = DsBlockM.init (F0 * 2 ^ i) (F0 * 2 ^ i * 2) (decide (i < D - 1)) := by
    intro i hi
    show (((List.range D).map fun j =>
        DsBlockM.init (F0 * 2 ^ j) (F0 * 2 ^ j * 2) (decide (j < D - 1))).getD i dfltDs) = _
    exact rangeMap_getD _ dfltDs D i hi
  have hdown : ∀ i, i < D →
      ((ELUNetM.init nc ic D F0 mode res).down_convs.getD i dfltDs).conv.inCh = F0 * 2 ^ i ∧
      ((ELUNetM.init nc ic D F0 mode res).down_convs.getD i dfltDs).conv.outCh
        = 2 * (F0 * 2 ^ i) := by
    intro i hi
    rw [hdown0 i hi]
    exact ⟨rfl, mul_comm (F0 * 2 ^ i) 2⟩
  refine ⟨by simp [ELUNetM.init], ?_, hdown, hup, ?_, ?_⟩
  · show (buildUp res mode (F0 * 2 ^ (D - 1) * 2) (D - 1)).length = D - 1
    exact buildUp_length res mode (D - 1) _
  · intro i hi
    rw [hup (i + 1) (by omega), hup i (by omega)]
    have he : D - 1 - i = (D - 1 - (i + 1)) + 1 := by omega
    rw [he, pow_succ]
    ring
  · intro h2
    rw [hup 0 (by omega), (hdown (D - 1) (by omega)).2, Nat.sub_zero]

/-- Witness for claim C4 at depth 5 with 64 start filters. -/
theorem elunet_stage_counts_and_channels_witness :
    (ELUNetM.init 4 3 5 64 "transpose" false).down_convs.length = 5 ∧
    (ELUNetM.init 4 3 5 64 "transpose" false).up_convs.length = 5 - 1 ∧
    (∀ i, i < 5 →
      ((ELUNetM.init 4 3 5 64 "transpose" false).down_convs.getD i dfltDs).conv.inCh
        = 64 * 2 ^ i ∧
      ((ELUNetM.init 4 3 5 64 "transpose" false).down_convs.getD i dfltDs).conv.outCh
        = 2 * (64 * 2 ^ i)) ∧
    (∀ i, i < 5 - 1 →
      ((ELUNetM.init 4 3 5 64 "transpose" false).up_convs.getD i dfltUp).outCh
        = 64 * 2 ^ (5 - 1 - i)) ∧
    (∀ i, i + 1 < 5 - 1 →
      2 * ((ELUNetM.init 4 3 5 64 "transpose" false).up_convs.getD (i + 1) dfltUp).outCh
        = ((ELUNetM.init 4 3 5 64 "transpose" false).up_convs.getD i dfltUp).outCh) ∧
    (2 ≤ 5 →
      2 * ((ELUNetM.init 4 3 5 64 "transpose" false).up_convs.getD 0 dfltUp).outCh
        = ((ELUNetM.init 4 3 5 64 "transpose" false).down_convs.getD (5 - 1) dfltDs).conv.outCh) :=
  elunet_stage_counts_and_channels 4 3 5 64 (by decide) (by decide) "transpose" false

/-- The decoder loop of the forward pass never emits the final classifier
event: conv_final is applied nowhere. -/
theorem decLoop_convFinal_not_mem (fusion : ConvM) (skips eouts : List Tensor) :
    ∀ (bs : List UpBlockM) (i : Nat) (x : Tensor),
      Ev.convFinal ∉ (decLoop fusion skips eouts i bs x).2 := by
  intro bs
  induction bs with
  | nil => intro i x; simp [decLoop]
  | cons b rest ih =>
      intro i x
      simp only [decLoop]
      intro hmem
      rcases List.mem_cons.mp hmem with h | h
      · exact absurd h (by simp)
      rcases List.mem_append.mp h with h | h
      · rcases List.mem_append.mp h with h | h
        · revert h; split <;> simp
        · revert h; split <;> simp
      rcases List.mem_cons.mp h with h | h
      · exact absurd h (by simp)
      · exact ih _ _ h

/-- The decoder loop applies the shared fusion convolution at every
iteration. -/
theorem decLoop_fusion_mem (fusion : ConvM) (skips eouts : List Tensor) :
    ∀ (bs : List UpBlockM) (i : Nat) (x : Tensor) (j : Nat), j < bs.length →
      Ev.fusionConv (i + j) ∈ (decLoop fusion skips eouts i bs x).2 := by
  intro bs
  induction bs with
  | nil => intro i x j hj; exact absurd hj (Nat.not_lt_zero j)
  | cons b rest ih =>
      intro i x j hj
      simp only [decLoop]
      cases j with
      | zero =>
          apply List.mem_cons_of_mem
          apply List.mem_append_right
          simp
      | succ m =>
          have hm : m < rest.length := by simpa using hj
          have he : i + (m + 1) = (i + 1) + m := by omega
          rw [he]
          apply List.mem_cons_of_mem
          apply List.mem_append_right
          apply List.mem_cons_of_mem
          exact ih (i + 1) _ m hm

/-- When the decoder runs at least one stage, the channel width of the
tensor it returns is the output width of the shared fusion convolution. -/
theorem decLoop_out_channels (fusion : ConvM) (skips eouts : List Tensor) :
    ∀ (bs : List UpBlockM) (i : Nat) (x : Tensor), bs ≠ [] →
      ((decLoop fusion skips eouts i bs x).1).c = fusion.outCh := by
  intro bs
  induction bs with
  | nil => intro i x h; exact absurd rfl h
  | cons b rest ih =>
      intro i x h
      cases rest with
      | nil => rfl
      | cons c cs => exact ih (i + 1) _ (by simp)

/-- At iteration i the decoder loop consumes the skip tensor at position
length - 1 - i of the skip list (python skip_connections[-(i+1)]). -/
theorem decLoop_skipUse_mem (fusion : ConvM) (skips eouts : List Tensor) :
    ∀ (bs : List UpBlockM) (i : Nat) (x : Tensor) (j : Nat), j < bs.length →
      Ev.skipUse (i + j) (skips.length - 1 - (i + j))
        ∈ (decLoop fusion skips eouts i bs x).2 := by
  intro bs
  induction bs with
  | nil => intro i x j hj; exact absurd hj (Nat.not_lt_zero j)
  | cons b rest ih =>
      intro i x j hj
      simp only [decLoop]
      cases j with
      | zero => simp
      | succ m =>
          have hm : m < rest.length := by simpa using hj
          have he : i + (m + 1) = (i + 1) + m := by omega
          rw [he]
          apply List.mem_cons_of_mem
          apply List.mem_append_right
          apply List.mem_cons_of_mem
          exact ih (i + 1) _ m hm

/-- The encoder loop starting at index i retains one skip tensor for every
stage whose index stays below total - 1. -/
theorem encLoop_skips_length (total : Nat) :
    ∀ (bs : List DsBlockM) (i : Nat) (x : Tensor),
      (encLoop total i bs x).2.2.length = min bs.length (total - 1 - i) := by
  intro bs
  induction bs with
  | nil => intro i x; simp [encLoop]
  | cons b rest ih =>
      intro i x
      simp only [encLoop]
      split
      · rename_i hlt
        rw [List.length_cons, ih (i + 1)]
        simp only [List.length_cons]
        omega
      · rename_i hge
        rw [ih (i + 1)]
        simp only [List.length_cons]
        omega

/-- Claim C1: the forward pass never applies the final 1x1x1 classifier
convolution conv_final: no classifier event occurs in the trace for any
input and any configuration; every decoder iteration instead ends in the
shared fusion convolution, and for depth at least 2 the channel width of
the returned tensor is the fusion width, not the classifier width. -/
theorem conv_final_never_applied (nc ic D F0 : Nat) (mode : String) (res : Bool)
    (x : Tensor) :
    Ev.convFinal ∉ ((ELUNetM.init nc ic D F0 mode res).forward x).2.2 ∧
    (∀ i, i < D - 1 →
      Ev.fusionConv i ∈ ((ELUNetM.init nc ic D F0 mode res).forward x).2.2) ∧
    (2 ≤ D →
      (((ELUNetM.init nc ic D F0 mode res).forward x).1).c
        = (ELUNetM.init nc ic D F0 mode res).conv.outCh) := by
  have hlen : (ELUNetM.init nc ic D F0 mode res).up_convs.length = D - 1 := by
    show (buildUp res mode (F0 * 2 ^ (D - 1) * 2) (D - 1)).length = D - 1
    exact buildUp_length res mode (D - 1) _
  refine ⟨decLoop_convFinal_not_mem _ _ _ _ _ _, ?_, ?_⟩
  · intro i hi
    have hmem := decLoop_fusion_mem (ELUNetM.init nc ic D F0 mode res).conv
      (encLoop (ELUNetM.init nc ic D F0 mode res).down_convs.length 0
        (ELUNetM.init nc ic D F0 mode res).down_convs
        (applyConv (ELUNetM.init nc ic D F0 mode res).conv_start x)).2.2
      (encLoop (ELUNetM.init nc ic D F0 mode res).down_convs.length 0
        (ELUNetM.init nc ic D F0 mode res).down_convs
        (applyConv (ELUNetM.init nc ic D F0 mode res).conv_start x)).2.1
      (ELUNetM.init nc ic D F0 mode res).up_convs 0
      (encLoop (ELUNetM.init nc ic D F0 mode res).down_convs.length 0
        (ELUNetM.init nc ic D F0 mode res).down_convs
        (applyConv (ELUNetM.init nc ic D F0 mode res).conv_start x)).1
      i (by rw [hlen]; omega)
    rw [Nat.zero_add] at hmem
    exact hmem
  · intro h2
    have hne : (ELUNetM.init nc ic D F0 mode res).up_convs ≠ [] := by
      intro hnil
      rw [hnil] at hlen
      simp at hlen
      omega
    exact decLoop_out_channels (ELUNetM.init nc ic D F0 mode res).conv
      (encLoop (ELUNetM.init nc ic D F0 mode res).down_convs.length 0
        (ELUNetM.init nc ic D F0 mode res).down_convs
        (applyConv (ELUNetM.init nc ic D F0 mode res).conv_start x)).2.2
      (encLoop (ELUNetM.init nc ic D F0 mode res).down_convs.length 0
        (ELUNetM.init nc ic D F0 mode res).down_convs
        (applyConv (ELUNetM.init nc ic D F0 mode res).conv_start x)).2.1
      (ELUNetM.init nc ic D F0 mode res).up_convs 0
      (encLoop (ELUNetM.init nc ic D F0 mode res).down_convs.length 0
        (ELUNetM.init nc ic D F0 mode res).down_convs
        (applyConv (ELUNetM.init nc ic D F0 mode res).conv_start x)).1
      hne

/-- Witness for claim C1 at the configuration of the source smoke test. -/
theorem conv_final_never_applied_witness :
    Ev.convFinal ∉ ((ELUNetM.init 4 1 4 1 "trilinear" false).forward
      ⟨2, 1, (144, 144, 8)⟩).2.2 ∧
    Ev.fusionConv 0 ∈ ((ELUNetM.init 4 1 4 1 "trilinear" false).forward
      ⟨2, 1, (144, 144, 8)⟩).2.2 ∧
    (((ELUNetM.init 4 1 4 1 "trilinear" false).forward ⟨2, 1, (144, 144, 8)⟩).1).c
      = (ELUNetM.init 4 1 4 1 "trilinear" false).conv.outCh :=
  ⟨(conv_final_never_applied 4 1 4 1 "trilinear" false ⟨2, 1, (144, 144, 8)⟩).1,
   (conv_final_never_applied 4 1 4 1 "trilinear" false ⟨2, 1, (144, 144, 8)⟩).2.1
     0 (by decide),
   (conv_final_never_applied 4 1 4 1 "trilinear" false ⟨2, 1, (144, 144, 8)⟩).2.2
     (by decide)⟩

/-- Claim C5: the forward pass retains exactly depth - 1 skip tensors (the
final encoder output is never appended to the skip list), and the decoder
consumes them in reverse order of production: decoder stage j (counting
stages from 1) consumes the skip tensor at position D - 1 - j of the
production-ordered skip list, i.e. the one produced by encoder stage
D - 1 - j (stages counted from 0), the last-produced skip feeding the
first decoder stage. -/
theorem skip_reverse_consumption (nc ic D F0 : Nat) (hD : 1 ≤ D)
    (mode : String) (res : Bool) (x : Tensor) :
    (((ELUNetM.init nc ic D F0 mode res).forward x).2.1).length = D - 1 ∧
    (∀ j, 1 ≤ j → j ≤ D - 1 →
      Ev.skipUse (j - 1) (D - 1 - j)
        ∈ ((ELUNetM.init nc ic D F0 mode res).forward x).2.2) := by
  have hdlen : (ELUNetM.init nc ic D F0 mode res).down_convs.length = D := by
    simp [ELUNetM.init]
  have hulen : (ELUNetM.init nc ic D F0 mode res).up_convs.length = D - 1 := by
    show (buildUp res mode (F0 * 2 ^ (D - 1) * 2) (D - 1)).length = D - 1
    exact buildUp_length res mode (D - 1) _
  have hskips : (((ELUNetM.init nc ic D F0 mode res).forward x).2.1).length = D - 1 := by
    show (encLoop (ELUNetM.init nc ic D F0 mode res).down_convs.length 0
      (ELUNetM.init nc ic D F0 mode res).down_convs
      (applyConv (ELUNetM.init nc ic D F0 mode res).conv_start x)).2.2.length = D - 1
    rw [encLoop_skips_length]
    rw [hdlen]
    omega
  refine ⟨hskips, ?_⟩
  intro j hj1 hj2
  have hmem := decLoop_skipUse_mem (ELUNetM.init nc ic D F0 mode res).conv
    (encLoop (ELUNetM.init nc ic D F0 mode res).down_convs.length 0
      (ELUNetM.init nc ic D F0 mode res).down_convs
      (applyConv (ELUNetM.init nc ic D F0 mode res).conv_start x)).2.2
    (encLoop (ELUNetM.init nc ic D F0 mode res).down_convs.length 0
      (ELUNetM.init nc ic D F0 mode res).down_convs
      (applyConv (ELUNetM.init nc ic D F0 mode res).conv_start x)).2.1
    (ELUNetM.init nc ic D F0 mode res).up_convs 0
    (encLoop (ELUNetM.init nc ic D F0 mode res).down_convs.length 0
      (ELUNetM.init nc ic D F0 mode res).down_convs
      (applyConv (ELUNetM.init nc ic D F0 mode res).conv_start x)).1
    (j - 1) (by rw [hulen]; omega)
  rw [Nat.zero_add] at hmem
  have hlen2 : (encLoop (ELUNetM.init nc ic D F0 mode res).down_convs.length 0
      (ELUNetM.init nc ic D F0 mode res).down_convs
      (applyConv (ELUNetM.init nc ic D F0 mode res).conv_start x)).2.2.length = D - 1 :=
    hskips
  rw [hlen2] at hmem
  have he : D - 1 - 1 - (j - 1) = D - 1 - j := by omega
  rw [he] at hmem
  exact hmem

/-- Witness for claim C5 at depth 3. -/
theorem skip_reverse_consumption_witness :
    (((ELUNetM.init 4 1 3 1 "transpose" false).forward
        ⟨1, 1, (8, 8, 8)⟩).2.1).length = 3 - 1 ∧
    Ev.skipUse (1 - 1) (3 - 1 - 1)
      ∈ ((ELUNetM.init 4 1 3 1 "transpose" false).forward ⟨1, 1, (8, 8, 8)⟩).2.2 :=
  ⟨(skip_reverse_consumption 4 1 3 1 (by decide) "transpose" false ⟨1, 1, (8, 8, 8)⟩).1,
   (skip_reverse_consumption 4 1 3 1 (by decide) "transpose" false ⟨1, 1, (8, 8, 8)⟩).2
     1 (by decide) (by decide)⟩

/-- Claim C6 fails on the code: for depth 2 and an input whose spatial
dimensions all equal 2 = 2 to the power D - 1, the interpolation fallback
still triggers at decoder iteration 0, both the one in the body of forward
(with res unset) and the one inside UsBlockRes (with res set): the tensor
fetched from encoder_outs at index -(i+1) sits one pooling level below the
upsampled tensor, so its spatial size is half the target and the sizes
never match. -/
theorem resample_triggers_at_pow2_input :
    Ev.resampleOuter 0 ∈ ((ELUNetM.init 2 1 2 1 "transpose" false).forward
      ⟨1, 1, (2, 2, 2)⟩).2.2 ∧
    Ev.resampleRes 0 ∈ ((ELUNetM.init 2 1 2 1 "transpose" true).forward
      ⟨1, 1, (2, 2, 2)⟩).2.2 ∧
    Ev.resampleOuter 0 ∈ ((ELUNetM.init 2 1 2 1 "transpose" true).forward
      ⟨1, 1, (2, 2, 2)⟩).2.2 := by
  refine ⟨?_, ?_, ?_⟩ <;> decide

end ELUNetModel

namespace CardiacData

/-- Evaluation of pyIdx on an in-range nonnegative index. -/
theorem pyIdx_of_nonneg_le (n : Nat) (i : Int) (h0 : 0 ≤ i) (hn : i ≤ (n : Int)) :
    pyIdx n i = i.toNat := by
  unfold pyIdx
  rw [if_neg (by omega)]
  omega

/-- Claim C7: crop_img on a 4D volume already at canonical size (depth
axis 8, spatial 144 x 144) returns it unchanged, and crop_label does the
same on a canonical 8 x 144 x 144 label volume, so both crops are no-ops,
hence idempotent, at canonical size. -/
theorem crop_noop_at_canonical (img : Arr4) (lab : Arr3)
    (h1 : img.s1 = 8) (h2 : img.s2 = 144) (h3 : img.s3 = 144)
    (g0 : lab.s0 = 8) (g1 : lab.s1 = 144) (g2 : lab.s2 = 144) :
    crop_img img = img ∧ crop_label lab = lab := by
  constructor
  · obtain ⟨s0, s1, s2, s3, d⟩ := img
    simp only at h1 h2 h3
    subst h1; subst h2; subst h3
    simp [crop_img, Arr4.slice1, Arr4.slice2, Arr4.slice3, pyIdx]
  · obtain ⟨t0, t1, t2, d⟩ := lab
    simp only at g0 g1 g2
    subst g0; subst g1; subst g2
    simp [crop_label, Arr3.slice0, Arr3.slice1, Arr3.slice2, pyIdx]

/-- Witness for claim C7 on concrete canonical volumes. -/
theorem crop_noop_at_canonical_witness :
    crop_img ⟨3, 8, 144, 144, fun _ _ _ _ => 7⟩ = ⟨3, 8, 144, 144, fun _ _ _ _ => 7⟩ ∧
    crop_label ⟨8, 144, 144, fun _ _ _ => 2⟩ = ⟨8, 144, 144, fun _ _ _ => 2⟩ :=
  crop_noop_at_canonical ⟨3, 8, 144, 144, fun _ _ _ _ => 7⟩ ⟨8, 144, 144, fun _ _ _ => 2⟩
    rfl rfl rfl rfl rfl rfl

/-- Claim C10: on a 4D volume whose depth axis is shorter than 8 and whose
spatial dimensions are at least 144, crop_img produces shape
(time, 8, 144, 144) where the original (center-cropped) content occupies
the leading depth slices and the appended slices at the end of the depth
axis are all zero; crop_label does the same on its leading axis, producing
(8, 144, 144). -/
theorem crop_pads_zeros_at_end (img : Arr4) (lab : Arr3)
    (h1 : img.s1 < 8) (h2 : 144 ≤ img.s2) (h3 : 144 ≤ img.s3)
    (g0 : lab.s0 < 8) (g1 : 144 ≤ lab.s1) (g2 : 144 ≤ lab.s2) :
    ((crop_img img).s0 = img.s0 ∧ (crop_img img).s1 = 8 ∧
     (crop_img img).s2 = 144 ∧ (crop_img img).s3 = 144 ∧
     (∀ i j k l, j < img.s1 →
        (crop_img img).data i j k l
          = img.data i j (k + (img.s2 / 2 - 72)) (l + (img.s3 / 2 - 72))) ∧
     (∀ i j k l, img.s1 ≤ j → (crop_img img).data i j k l = 0)) ∧
    ((crop_label lab).s0 = 8 ∧ (crop_label lab).s1 = 144 ∧ (crop_label lab).s2 = 144 ∧
     (∀ j k l, j < lab.s0 →
        (crop_label lab).data j k l
          = lab.data j (k + (lab.s1 / 2 - 72)) (l + (lab.s2 / 2 - 72))) ∧
     (∀ j k l, lab.s0 ≤ j → (crop_label lab).data j k l = 0)) := by
  obtain ⟨s0, s1, s2, s3, d⟩ := img
  obtain ⟨t0, t1, t2, e⟩ := lab
  simp only at h1 h2 h3 g0 g1 g2
  refine ⟨⟨?_, ?_, ?_, ?_, ?_, ?_⟩, ?_, ?_, ?_, ?_, ?_⟩
  · simp [crop_img, h1, concat4ax1, Arr4.slice2, Arr4.slice3, zeros4, pyIdx]
  · simp [crop_img, h1, concat4ax1, Arr4.slice2, Arr4.slice3, zeros4, pyIdx]
    omega
  · simp [crop_img, h1, concat4ax1, Arr4.slice2, Arr4.slice3, zeros4, pyIdx]
    split_ifs <;> omega
  · simp [crop_img, h1, concat4ax1, Arr4.slice2, Arr4.slice3, zeros4, pyIdx]
    split_ifs <;> omega
  · intro i j k l hj
    simp [crop_img, h1, concat4ax1, Arr4.slice2, Arr4.slice3, zeros4, pyIdx, hj]
    split_ifs <;> (congr 1 <;> omega)
  · intro i j k l hj
    simp only at hj
    simp [crop_img, h1, concat4ax1, Arr4.slice2, Arr4.slice3, zeros4, pyIdx]
    split_ifs <;> (intro hlt; exact absurd hlt (by omega))
  · simp [crop_label, g0, concat3ax0, Arr3.slice1, Arr3.slice2, zeros3, pyIdx]
    omega
  · simp [crop_label, g0, concat3ax0, Arr3.slice1, Arr3.slice2, zeros3, pyIdx]
    split_ifs <;> omega
  · simp [crop_label, g0, concat3ax0, Arr3.slice1, Arr3.slice2, zeros3, pyIdx]
    split_ifs <;> omega
  · intro j k l hj
    simp [crop_label, g0, concat3ax0, Arr3.slice1, Arr3.slice2, zeros3, pyIdx, hj]
    split_ifs <;> (congr 1 <;> omega)
  · intro j k l hj
    simp only at hj
    simp [crop_label, g0, concat3ax0, Arr3.slice1, Arr3.slice2, zeros3, pyIdx]
    split_ifs <;> (intro hlt; exact absurd hlt (by omega))

/-- Witness for claim C10 on a depth-5 volume with 150 x 144 spatial
size: the crop reaches depth 8 and the appended slice at depth index 5 is
zero. -/
theorem crop_pads_zeros_at_end_witness :
    (crop_img ⟨2, 5, 150, 144, fun _ _ _ _ => 1⟩).s1 = 8 ∧
    (crop_label ⟨5, 145, 144, fun _ _ _ => 3⟩).s0 = 8 ∧
    (crop_img ⟨2, 5, 150, 144, fun _ _ _ _ => 1⟩).data 0 5 0 0 = 0 ∧
    (crop_label ⟨5, 145, 144, fun _ _ _ => 3⟩).data 7 0 0 = 0 :=
  ⟨(crop_pads_zeros_at_end ⟨2, 5, 150, 144, fun _ _ _ _ => 1⟩
      ⟨5, 145, 144, fun _ _ _ => 3⟩ (by decide) (by decide) (by decide)
      (by decide) (by decide) (by decide)).1.2.1,
   (crop_pads_zeros_at_end ⟨2, 5, 150, 144, fun _ _ _ _ => 1⟩
      ⟨5, 145, 144, fun _ _ _ => 3⟩ (by decide) (by decide) (by decide)
      (by decide) (by decide) (by decide)).2.1,
   (crop_pads_zeros_at_end ⟨2, 5, 150, 144, fun _ _ _ _ => 1⟩
      ⟨5, 145, 144, fun _ _ _ => 3⟩ (by decide) (by decide) (by decide)
      (by decide) (by decide) (by decide)).1.2.2.2.2.2 0 5 0 0 (by decide),
   (crop_pads_zeros_at_end ⟨2, 5, 150, 144, fun _ _ _ _ => 1⟩
      ⟨5, 145, 144, fun _ _ _ => 3⟩ (by decide) (by decide) (by decide)
      (by decide) (by decide) (by decide)).2.2.2.2.2 7 0 0 (by decide)⟩

/-- Shape of crop_img: (time, 8, 144, 144) whenever both spatial
dimensions are at least 144, whichever branch runs. -/
theorem crop_img_shape (img : Arr4) (h2 : 144 ≤ img.s2) (h3 : 144 ≤ img.s3) :
    (crop_img img).s0 = img.s0 ∧ (crop_img img).s1 = 8 ∧
    (crop_img img).s2 = 144 ∧ (crop_img img).s3 = 144 := by
  obtain ⟨s0, s1, s2, s3, d⟩ := img
  simp only at h2 h3
  by_cases hd : s1 < 8
  · refine ⟨?_, ?_, ?_, ?_⟩
    · simp [crop_img, hd, concat4ax1, Arr4.slice2, Arr4.slice3, zeros4, pyIdx]
    · simp [crop_img, hd, concat4ax1, Arr4.slice2, Arr4.slice3, zeros4, pyIdx]
      omega
    · simp [crop_img, hd, concat4ax1, Arr4.slice2, Arr4.slice3, zeros4, pyIdx]
      split_ifs <;> omega
    · simp [crop_img, hd, concat4ax1, Arr4.slice2, Arr4.slice3, zeros4, pyIdx]
      split_ifs <;> omega
  · refine ⟨?_, ?_, ?_, ?_⟩
    · simp [crop_img, hd, Arr4.slice1, Arr4.slice2, Arr4.slice3, pyIdx]
    · simp [crop_img, hd, Arr4.slice1, Arr4.slice2, Arr4.slice3, pyIdx]
      split_ifs <;> omega
    · simp [crop_img, hd, Arr4.slice1, Arr4.slice2, Arr4.slice3, pyIdx]
      split_ifs <;> omega
    · simp [crop_img, hd, Arr4.slice1, Arr4.slice2, Arr4.slice3, pyIdx]
      split_ifs <;> omega

/-- Shape of crop_label: (8, 144, 144) whenever both spatial dimensions
are at least 144, whichever branch runs. -/
theorem crop_label_shape (lab : Arr3) (g1 : 144 ≤ lab.s1) (g2 : 144 ≤ lab.s2) :
    (crop_label lab).s0 = 8 ∧ (crop_label lab).s1 = 144 ∧
    (crop_label lab).s2 = 144 := by
  obtain ⟨t0, t1, t2, e⟩ := lab
  simp only at g1 g2
  by_cases hd : t0 < 8
  · refine ⟨?_, ?_, ?_⟩
    · simp [crop_label, hd, concat3ax0, Arr3.slice1, Arr3.slice2, zeros3, pyIdx]
      omega
    · simp [crop_label, hd, concat3ax0, Arr3.slice1, Arr3.slice2, zeros3, pyIdx]
      split_ifs <;> omega
    · simp [crop_label, hd, concat3ax0, Arr3.slice1, Arr3.slice2, zeros3, pyIdx]
      split_ifs <;> omega
  · refine ⟨?_, ?_, ?_⟩
    · simp [crop_label, hd, Arr3.slice0, Arr3.slice1, Arr3.slice2, pyIdx]
      split_ifs <;> omega
    · simp [crop_label, hd, Arr3.slice0, Arr3.slice1, Arr3.slice2, pyIdx]
      split_ifs <;> omega
    · simp [crop_label, hd, Arr3.slice0, Arr3.slice1, Arr3.slice2, pyIdx]
      split_ifs <;> omega

/-- Claim C8: with a folder name whose first digit run is 5 and an
Info.cfg reading ED:1 then ES:10, construction parses end-diastole frame 1
from the first line and end-systole frame 10 from the second line, and
builds ground-truth paths holding patient005_frame01_gt and
patient005_frame10_gt (3-digit case number, 2-digit frame indices). -/
theorem info_parse_and_gt_paths (folder : String) (raw : Arr4) (edr esr : Arr3)
    (f : Int → Int) (hpt : (digitRuns folder).head? = some "5") :
    (cardiacdata.init folder "ED:1\nES:10" raw edr esr f).map
        (fun d0 => (d0.ed, d0.es, d0.gt_dir_ed, d0.gt_dir_es))
      = some (1, 10,
          IMG_DIR ++ "/patient005/patient005_frame01_gt.nii.gz",
          IMG_DIR ++ "/patient005/patient005_frame10_gt.nii.gz") := by
  simp only [cardiacdata.init, hpt]
  rfl

/-- Witness for claim C8 at the folder name patient5. -/
theorem info_parse_and_gt_paths_witness :
    (cardiacdata.init "patient5" "ED:1\nES:10" ⟨1, 1, 144, 144, fun _ _ _ _ => 0⟩
        ⟨1, 144, 144, fun _ _ _ => 0⟩ ⟨1, 144, 144, fun _ _ _ => 0⟩ (fun v => v)).map
        (fun d0 => (d0.ed, d0.es, d0.gt_dir_ed, d0.gt_dir_es))
      = some (1, 10,
          IMG_DIR ++ "/patient005/patient005_frame01_gt.nii.gz",
          IMG_DIR ++ "/patient005/patient005_frame10_gt.nii.gz") :=
  info_parse_and_gt_paths "patient5" ⟨1, 1, 144, 144, fun _ _ _ _ => 0⟩
    ⟨1, 144, 144, fun _ _ _ => 0⟩ ⟨1, 144, 144, fun _ _ _ => 0⟩ (fun v => v) rfl

/-- Claim C3 as stated is false on the code: at a well-formed concrete
case (4D volume of shape (12, 10, 144, 144), labels (10, 144, 144),
Info.cfg reading ED:1 then ES:10) indexed access returns an image of
shape (1, 16, 144, 144), not (1, 1, 144, 144), and a rank-3 label of
shape (16, 144, 144), not a rank-2 (144, 144) tensor: the two phases and
the 8 depth slices are merged into one axis of size 16. -/
theorem getitem_claimed_shape_counterexample :
    (cardiacdata.init "patient5" "ED:1\nES:10" ⟨12, 10, 144, 144, fun _ _ _ _ => 0⟩
        ⟨10, 144, 144, fun _ _ _ => 0⟩ ⟨10, 144, 144, fun _ _ _ => 0⟩ (fun v => v)).map
        (fun d0 => (((d0.getitem 0).1.s0, (d0.getitem 0).1.s1,
                     (d0.getitem 0).1.s2, (d0.getitem 0).1.s3),
                    ((d0.getitem 0).2.s0, (d0.getitem 0).2.s1, (d0.getitem 0).2.s2)))
      = some ((1, 16, 144, 144), (16, 144, 144)) ∧
    ¬ (((1 : Nat), (16 : Nat), (144 : Nat), (144 : Nat))
        = ((1 : Nat), (1 : Nat), (144 : Nat), (144 : Nat))) := by
  exact ⟨by decide, by decide⟩

/-- Claim C3 amended: for every constructed instance whose raw volumes are
well formed (spatial dimensions at least 144, frame indices within the
time axis), indexed access returns an image tensor of shape
(1, 16, 144, 144) and a label tensor of shape (16, 144, 144) of integer
class indices: two phases times eight depth slices merged into one axis,
each with the 144 x 144 spatial extent. -/
theorem getitem_shapes_actual (folder content : String) (raw : Arr4)
    (edr esr : Arr3) (f : Int → Int)
    (h2 : 144 ≤ raw.s2) (h3 : 144 ≤ raw.s3)
    (e1 : 144 ≤ edr.s1) (e2 : 144 ≤ edr.s2)
    (q1 : 144 ≤ esr.s1) (q2 : 144 ≤ esr.s2)
    (ed es : Nat)
    (hed : infoLine content 0 = some ed) (hes : infoLine content 1 = some es)
    (hed1 : 1 ≤ ed) (hedn : ed ≤ raw.s0) (hes1 : 1 ≤ es) (hesn : es ≤ raw.s0)
    (pt : String) (hpt : (digitRuns folder).head? = some pt) :
    (cardiacdata.init folder content raw edr esr f).map
        (fun d0 => (((d0.getitem 0).1.s0, (d0.getitem 0).1.s1,
                     (d0.getitem 0).1.s2, (d0.getitem 0).1.s3),
                    ((d0.getitem 0).2.s0, (d0.getitem 0).2.s1, (d0.getitem 0).2.s2)))
      = some ((1, 16, 144, 144), (16, 144, 144)) := by
  obtain ⟨hc0, hc1, hc2, hc3⟩ := crop_img_shape raw h2 h3
  obtain ⟨hl0, hl1, hl2⟩ := crop_label_shape edr e1 e2
  simp only [cardiacdata.init, hpt, hed, hes, Option.bind_eq_bind, Option.some_bind,
    Option.map_some]
  simp only [cardiacdata.getitem, Arr4.index0, Arr3.expand0, Arr4.mergeLeading,
    concat4ax0, normalize_img, Arr4.slice0]
  simp only [hc0, hc1, hc2, hc3, hl0, hl1, hl2]
  refine congrArg some ?_
  simp only [Prod.mk.injEq, and_true, true_and]
  simp only [pyIdx]
  split_ifs <;> omega

/-- Witness for the amended claim C3 at a concrete well-formed case. -/
theorem getitem_shapes_actual_witness :
    (cardiacdata.init "patient5" "ED:1\nES:10" ⟨12, 10, 144, 144, fun _ _ _ _ => 0⟩
        ⟨10, 144, 144, fun _ _ _ => 0⟩ ⟨10, 144, 144, fun _ _ _ => 0⟩ (fun v => v)).map
        (fun d0 => (((d0.getitem 0).1.s0, (d0.getitem 0).1.s1,
                     (d0.getitem 0).1.s2, (d0.getitem 0).1.s3),
                    ((d0.getitem 0).2.s0, (d0.getitem 0).2.s1, (d0.getitem 0).2.s2)))
      = some ((1, 16, 144, 144), (16, 144, 144)) :=
  getitem_shapes_actual "patient5" "ED:1\nES:10" ⟨12, 10, 144, 144, fun _ _ _ _ => 0⟩
    ⟨10, 144, 144, fun _ _ _ => 0⟩ ⟨10, 144, 144, fun _ _ _ => 0⟩ (fun v => v)
    (by decide) (by decide) (by decide) (by decide) (by decide) (by decide)
    1 10 rfl rfl (by decide) (by decide) (by decide) (by decide) "5" rfl

end CardiacData
